import Mathlib

/-!
Shallow embedding of the Flamingo swap paper-trading bot
(`src/main.py`, class `FlamingoSwapBot`, and `src/debug.py`).

Python floats are modelled as exact rationals, following the spec's
decimal data model.  A fetched feed payload is modelled as an optional
list of price records: `none` stands for a transport failure or an
unparseable response (the `try/except` in `get_rate` returns `None` in
those cases), and a record's missing `usd_price` field is an `Option`.
Python's `ZeroDivisionError` inside the `try` block of `get_rate` is
likewise caught and yields `None`, which the embedding reflects with an
explicit zero test before the division.
-/

namespace SwapBot

/-- A price record from the feed: a symbol and an optional USD price
(`item.get ("usd_price")` is `None` when the field is absent). -/
structure PriceRecord where
  symbol : String
  usd_price : Option ℚ
deriving DecidableEq

/-- An active trade held by one channel: the rate at the moment of entry
and the amount of the acquired asset (GAS for the NEO→GAS channel, NEO
for the GAS→NEO channel).  Mirrors the dicts
`{"entry_rate": rate, "gas_amount": ...}` and
`{"entry_rate": rate, "neo_amount": ...}` in `main.py`. -/
structure Trade where
  entry_rate : ℚ
  amount : ℚ
deriving DecidableEq

/-- The bot's mutable state: the two balances and the optional active
trade of each channel (the fields of `FlamingoSwapBot.__init__`). -/
structure BotState where
  neo_balance : ℚ
  gas_balance : ℚ
  active_trade_neo_to_gas : Option Trade
  active_trade_gas_to_neo : Option Trade
deriving DecidableEq

/-- `self.entry_lower_bound = 0.2995` in `__init__`. -/
def entry_lower_bound : ℚ := 2995 / 10000

/-- `self.entry_upper_bound = 0.3005` in `__init__`. -/
def entry_upper_bound : ℚ := 3005 / 10000

/-- The exit displacement `0.001` hard-coded in both exit checks. -/
def exit_threshold : ℚ := 1 / 1000

/-- The initial state built by `__init__`:
`neo_balance = 10000`, `gas_balance = 100000`, no active trades. -/
def initState : BotState :=
  { neo_balance := 10000
    gas_balance := 100000
    active_trade_neo_to_gas := none
    active_trade_gas_to_neo := none }

/-- The symbol scan of `get_rate`: a left fold over the records in array
order; a `"NEO"` record overwrites the first component, a `"GAS"` record
(via `elif`) the second, any other record is skipped.  The accumulator
starts at `(none, none)` (`neo_price = None; gas_price = None`). -/
def scanPrices (data : List PriceRecord) : Option ℚ × Option ℚ :=
  data.foldl
    (fun acc item =>
      if item.symbol = "NEO" then (item.usd_price, acc.2)
      else if item.symbol = "GAS" then (acc.1, item.usd_price)
      else acc)
    (none, none)

/-- `get_rate` applied to a successfully fetched and parsed record list:
return `None` when the scan left `neo_price` or `gas_price` unset, and
otherwise `gas_price / neo_price`.  A zero `neo_price` raises
`ZeroDivisionError` in Python, which the surrounding `except` turns into
`None`; the embedding tests for it explicitly. -/
def get_rate (data : List PriceRecord) : Option ℚ :=
  match scanPrices data with
  | (none, _) => none
  | (some _, none) => none
  | (some np, some gp) => if np = 0 then none else some (gp / np)

/-- The whole fetch, `none` modelling a transport failure or an
unparseable payload (both return `None` through the `except` branch). -/
def fetchRate (feed : Option (List PriceRecord)) : Option ℚ :=
  match feed with
  | none => none
  | some data => get_rate data

/-- `check_entry_neo_to_gas`: `False` when a NEO→GAS trade is active,
otherwise whether the rate lies in the inclusive entry band. -/
def check_entry_neo_to_gas (s : BotState) (rate : ℚ) : Bool :=
  match s.active_trade_neo_to_gas with
  | some _ => false
  | none => decide (entry_lower_bound ≤ rate ∧ rate ≤ entry_upper_bound)

/-- `check_entry_gas_to_neo`: same band test, gated on the GAS→NEO
channel's own trade. -/
def check_entry_gas_to_neo (s : BotState) (rate : ℚ) : Bool :=
  match s.active_trade_gas_to_neo with
  | some _ => false
  | none => decide (entry_lower_bound ≤ rate ∧ rate ≤ entry_upper_bound)

/-- `enter_neo_to_gas_trade`: no-op (log only) when `neo_balance < 3000`;
otherwise debit 3000 NEO, credit `3000 / rate` GAS and record the trade. -/
def enter_neo_to_gas_trade (s : BotState) (rate : ℚ) : BotState :=
  if s.neo_balance < 3000 then s
  else
    { s with
      neo_balance := s.neo_balance - 3000
      gas_balance := s.gas_balance + 3000 / rate
      active_trade_neo_to_gas := some { entry_rate := rate, amount := 3000 / rate } }

/-- `enter_gas_to_neo_trade`: no-op when `gas_balance < 10000`; otherwise
debit 10000 GAS, credit `10000 * rate` NEO and record the trade. -/
def enter_gas_to_neo_trade (s : BotState) (rate : ℚ) : BotState :=
  if s.gas_balance < 10000 then s
  else
    { s with
      gas_balance := s.gas_balance - 10000
      neo_balance := s.neo_balance + 10000 * rate
      active_trade_gas_to_neo := some { entry_rate := rate, amount := 10000 * rate } }

/-- `check_exit_neo_to_gas`: when a trade is active and
`rate >= entry_rate + 0.001`, convert the held GAS back
(`neo_received = gas_amount * rate`) and clear the trade. -/
def check_exit_neo_to_gas (s : BotState) (rate : ℚ) : BotState :=
  match s.active_trade_neo_to_gas with
  | none => s
  | some trade =>
    if trade.entry_rate + exit_threshold ≤ rate then
      { s with
        gas_balance := s.gas_balance - trade.amount
        neo_balance := s.neo_balance + trade.amount * rate
        active_trade_neo_to_gas := none }
    else s

/-- `check_exit_gas_to_neo`: when a trade is active and
`rate <= entry_rate - 0.001`, convert the held NEO back
(`gas_received = neo_amount / rate`) and clear the trade. -/
def check_exit_gas_to_neo (s : BotState) (rate : ℚ) : BotState :=
  match s.active_trade_gas_to_neo with
  | none => s
  | some trade =>
    if rate ≤ trade.entry_rate - exit_threshold then
      { s with
        neo_balance := s.neo_balance - trade.amount
        gas_balance := s.gas_balance + trade.amount / rate
        active_trade_gas_to_neo := none }
    else s

/-- The NEO→GAS entry step of `run`: the outer
`if self.active_trade_neo_to_gas is None` guard together with the
`check_entry_neo_to_gas` call, performing the entry when both pass. -/
def entry_phase_neo_to_gas (s : BotState) (rate : ℚ) : BotState :=
  if s.active_trade_neo_to_gas.isNone && check_entry_neo_to_gas s rate then
    enter_neo_to_gas_trade s rate
  else s

/-- The GAS→NEO entry step of `run`, analogous. -/
def entry_phase_gas_to_neo (s : BotState) (rate : ℚ) : BotState :=
  if s.active_trade_gas_to_neo.isNone && check_entry_gas_to_neo s rate then
    enter_gas_to_neo_trade s rate
  else s

/-- One iteration of `run` after a successful rate fetch: both entry
phases, then both exit checks, in the source's fixed order. -/
def tick (s : BotState) (rate : ℚ) : BotState :=
  check_exit_gas_to_neo
    (check_exit_neo_to_gas
      (entry_phase_gas_to_neo (entry_phase_neo_to_gas s rate) rate) rate) rate

/-- One iteration of `run` including the fetch: when the rate is
unavailable the loop logs and `continue`s with the state untouched. -/
def loopStep (s : BotState) (feed : Option (List PriceRecord)) : BotState :=
  match fetchRate feed with
  | none => s
  | some rate => tick s rate

/-- Several iterations of `run`, one rate per tick. -/
def runTicks (s : BotState) (rates : List ℚ) : BotState :=
  rates.foldl tick s

/-- A fixture state with both channels holding a position entered at
rate 0.3, as produced by the first tick of the end-to-end scenario. -/
def bothOpenState : BotState :=
  ⟨10000, 100000, some ⟨3 / 10, 10000⟩, some ⟨3 / 10, 3000⟩⟩

/-- A fixture state with both channels idle and balances too small for
either entry size. -/
def lowFundsState : BotState := ⟨100, 50, none, none⟩

/-- A fixture state with both channels idle and the initial balances. -/
def idleState : BotState := ⟨10000, 100000, none, none⟩

/-- C2: from `neoBalance = 10000`, `gasBalance = 100000` and both
channels idle, the rate sequence `[0.3000, 0.3012, 0.2990]` produces:
after tick 1 unchanged balances with positions
`{entryRate 0.3, heldAmount 10000}` (NEO→GAS) and
`{entryRate 0.3, heldAmount 3000}` (GAS→NEO); after tick 2 only NEO→GAS
has exited, with `neoBalance = 13012`, `gasBalance = 90000`; after
tick 3 GAS→NEO has exited as well, with `neoBalance = 10012`,
`gasBalance = 90000 + 3000 / 0.2990`, and both channels idle. -/
theorem end_to_end_scenario :
    tick initState (3 / 10) =
      ⟨10000, 100000, some ⟨3 / 10, 10000⟩, some ⟨3 / 10, 3000⟩⟩ ∧
    tick (tick initState (3 / 10)) (3012 / 10000) =
      ⟨13012, 90000, none, some ⟨3 / 10, 3000⟩⟩ ∧
    runTicks initState [3 / 10, 3012 / 10000, 299 / 1000] =
      ⟨10012, 90000 + 3000 / (299 / 1000), none, none⟩ := by
  norm_num [tick, runTicks, initState, entry_phase_neo_to_gas, entry_phase_gas_to_neo,
    check_entry_neo_to_gas, check_entry_gas_to_neo, enter_neo_to_gas_trade,
    enter_gas_to_neo_trade, check_exit_neo_to_gas, check_exit_gas_to_neo,
    exit_threshold, entry_lower_bound, entry_upper_bound]

/-- C6: an entry attempted with insufficient funds leaves the whole
state — both balances and both positions — unchanged, for every rate. -/
theorem insufficient_funds_noop (s : BotState) (rate : ℚ) :
    (s.neo_balance < 3000 → enter_neo_to_gas_trade s rate = s) ∧
    (s.gas_balance < 10000 → enter_gas_to_neo_trade s rate = s) := by
  constructor
  · intro h
    simp [enter_neo_to_gas_trade, h]
  · intro h
    simp [enter_gas_to_neo_trade, h]

/-- Witness for C6 at `neo_balance = 100`, `gas_balance = 50`. -/
theorem insufficient_funds_noop_witness :
    enter_neo_to_gas_trade lowFundsState (3 / 10) = lowFundsState ∧
    enter_gas_to_neo_trade lowFundsState (3 / 10) = lowFundsState :=
  ⟨(insufficient_funds_noop lowFundsState (3 / 10)).1 (by norm_num [lowFundsState]),
   (insufficient_funds_noop lowFundsState (3 / 10)).2 (by norm_num [lowFundsState])⟩

/-- C1: while a channel holds an open position, its entry condition is
`false` at every rate and the entry phase of the loop leaves the whole
state — balances and both positions — untouched. -/
theorem single_position_per_channel (s : BotState) (rate : ℚ) (t : Trade) :
    (s.active_trade_neo_to_gas = some t →
      check_entry_neo_to_gas s rate = false ∧ entry_phase_neo_to_gas s rate = s) ∧
    (s.active_trade_gas_to_neo = some t →
      check_entry_gas_to_neo s rate = false ∧ entry_phase_gas_to_neo s rate = s) := by
  constructor
  · intro h
    have hc : check_entry_neo_to_gas s rate = false := by
      simp [check_entry_neo_to_gas, h]
    exact ⟨hc, by simp [entry_phase_neo_to_gas, hc]⟩
  · intro h
    have hc : check_entry_gas_to_neo s rate = false := by
      simp [check_entry_gas_to_neo, h]
    exact ⟨hc, by simp [entry_phase_gas_to_neo, hc]⟩

/-- Witness for C1: both channels open at entry rate 0.3, re-evaluated
at the in-band rate 0.3. -/
theorem single_position_per_channel_witness :
    (check_entry_neo_to_gas bothOpenState (3 / 10) = false ∧
      entry_phase_neo_to_gas bothOpenState (3 / 10) = bothOpenState) ∧
    (check_entry_gas_to_neo bothOpenState (3 / 10) = false ∧
      entry_phase_gas_to_neo bothOpenState (3 / 10) = bothOpenState) :=
  ⟨(single_position_per_channel bothOpenState (3 / 10) ⟨3 / 10, 10000⟩).1 rfl,
   (single_position_per_channel bothOpenState (3 / 10) ⟨3 / 10, 3000⟩).2 rfl⟩

/-- C4: for an idle channel the entry condition holds exactly when the
rate lies in the inclusive band `[0.2995, 0.3005]`; in particular it
holds at each endpoint. -/
theorem entry_band_inclusive (s : BotState) (rate : ℚ) :
    (s.active_trade_neo_to_gas = none →
      (check_entry_neo_to_gas s rate = true ↔
        entry_lower_bound ≤ rate ∧ rate ≤ entry_upper_bound)) ∧
    (s.active_trade_gas_to_neo = none →
      (check_entry_gas_to_neo s rate = true ↔
        entry_lower_bound ≤ rate ∧ rate ≤ entry_upper_bound)) ∧
    check_entry_neo_to_gas idleState entry_lower_bound = true ∧
    check_entry_neo_to_gas idleState entry_upper_bound = true ∧
    check_entry_gas_to_neo idleState entry_lower_bound = true ∧
    check_entry_gas_to_neo idleState entry_upper_bound = true := by
  refine ⟨fun h => ?_, fun h => ?_, ?_, ?_, ?_, ?_⟩
  · simp [check_entry_neo_to_gas, h]
  · simp [check_entry_gas_to_neo, h]
  all_goals
    norm_num [check_entry_neo_to_gas, check_entry_gas_to_neo, idleState,
      entry_lower_bound, entry_upper_bound]

/-- Witness for C4: an idle state, evaluated at the lower band edge. -/
theorem entry_band_inclusive_witness :
    (check_entry_neo_to_gas idleState (2995 / 10000) = true ↔
      entry_lower_bound ≤ (2995 / 10000 : ℚ) ∧
        (2995 / 10000 : ℚ) ≤ entry_upper_bound) ∧
    (check_entry_gas_to_neo idleState (2995 / 10000) = true ↔
      entry_lower_bound ≤ (2995 / 10000 : ℚ) ∧
        (2995 / 10000 : ℚ) ≤ entry_upper_bound) :=
  ⟨(entry_band_inclusive idleState (2995 / 10000)).1 rfl,
   ((entry_band_inclusive idleState (2995 / 10000)).2.1 rfl)⟩

/-- C3: a channel holding a position exits exactly when the rate has
moved by at least `exit_threshold = 0.001` in its favorable direction,
boundary-inclusive; concretely, a NEO→GAS position entered at 0.3000
exits at rate 0.3010 but not at 0.3009. -/
theorem exit_boundary (s : BotState) (rate : ℚ) (t : Trade) :
    (s.active_trade_neo_to_gas = some t →
      ((check_exit_neo_to_gas s rate).active_trade_neo_to_gas = none ↔
        t.entry_rate + exit_threshold ≤ rate)) ∧
    (s.active_trade_gas_to_neo = some t →
      ((check_exit_gas_to_neo s rate).active_trade_gas_to_neo = none ↔
        rate ≤ t.entry_rate - exit_threshold)) ∧
    (check_exit_neo_to_gas bothOpenState (3010 / 10000)).active_trade_neo_to_gas
      = none ∧
    (check_exit_neo_to_gas bothOpenState (3009 / 10000)).active_trade_neo_to_gas
      = some ⟨3 / 10, 10000⟩ := by
  refine ⟨fun h => ?_, fun h => ?_, ?_, ?_⟩
  · rw [check_exit_neo_to_gas, h]
    by_cases hc : t.entry_rate + exit_threshold ≤ rate <;> simp [hc, h]
  · rw [check_exit_gas_to_neo, h]
    by_cases hc : rate ≤ t.entry_rate - exit_threshold <;> simp [hc, h]
  · norm_num [check_exit_neo_to_gas, bothOpenState, exit_threshold]
  · norm_num [check_exit_neo_to_gas, bothOpenState, exit_threshold]

/-- Witness for C3: the open fixture state, checked at rate 0.3010 for
the NEO→GAS side and 0.2990 for the GAS→NEO side. -/
theorem exit_boundary_witness :
    ((check_exit_neo_to_gas bothOpenState (3010 / 10000)).active_trade_neo_to_gas
        = none ↔
      (3 / 10 : ℚ) + exit_threshold ≤ 3010 / 10000) ∧
    ((check_exit_gas_to_neo bothOpenState (2990 / 10000)).active_trade_gas_to_neo
        = none ↔
      (2990 / 10000 : ℚ) ≤ 3 / 10 - exit_threshold) :=
  ⟨(exit_boundary bothOpenState (3010 / 10000) ⟨3 / 10, 10000⟩).1 rfl,
   (exit_boundary bothOpenState (2990 / 10000) ⟨3 / 10, 3000⟩).2.1 rfl⟩

/-- C5: at a positive rate, each successful entry (sufficient funds,
channel idle) and each triggered exit (position held with a positive
amount) moves the two balances in opposite directions — exactly one
decreases and the other increases — and changes the acting channel's
position count by exactly one while leaving the other channel's
position untouched. -/
theorem paired_mutation (s : BotState) (rate : ℚ) (t : Trade) (hr : 0 < rate) :
    (3000 ≤ s.neo_balance → s.active_trade_neo_to_gas = none →
      (enter_neo_to_gas_trade s rate).neo_balance < s.neo_balance ∧
      s.gas_balance < (enter_neo_to_gas_trade s rate).gas_balance ∧
      (enter_neo_to_gas_trade s rate).active_trade_neo_to_gas.isSome = true ∧
      (enter_neo_to_gas_trade s rate).active_trade_gas_to_neo
        = s.active_trade_gas_to_neo) ∧
    (10000 ≤ s.gas_balance → s.active_trade_gas_to_neo = none →
      (enter_gas_to_neo_trade s rate).gas_balance < s.gas_balance ∧
      s.neo_balance < (enter_gas_to_neo_trade s rate).neo_balance ∧
      (enter_gas_to_neo_trade s rate).active_trade_gas_to_neo.isSome = true ∧
      (enter_gas_to_neo_trade s rate).active_trade_neo_to_gas
        = s.active_trade_neo_to_gas) ∧
    (s.active_trade_neo_to_gas = some t → 0 < t.amount →
      t.entry_rate + exit_threshold ≤ rate →
      (check_exit_neo_to_gas s rate).gas_balance < s.gas_balance ∧
      s.neo_balance < (check_exit_neo_to_gas s rate).neo_balance ∧
      (check_exit_neo_to_gas s rate).active_trade_neo_to_gas = none ∧
      (check_exit_neo_to_gas s rate).active_trade_gas_to_neo
        = s.active_trade_gas_to_neo) ∧
    (s.active_trade_gas_to_neo = some t → 0 < t.amount →
      rate ≤ t.entry_rate - exit_threshold →
      (check_exit_gas_to_neo s rate).neo_balance < s.neo_balance ∧
      s.gas_balance < (check_exit_gas_to_neo s rate).gas_balance ∧
      (check_exit_gas_to_neo s rate).active_trade_gas_to_neo = none ∧
      (check_exit_gas_to_neo s rate).active_trade_neo_to_gas
        = s.active_trade_neo_to_gas) := by
  refine ⟨fun hf _ => ?_, fun hf _ => ?_, fun h ha hc => ?_, fun h ha hc => ?_⟩
  · have hnl : ¬ s.neo_balance < 3000 := not_lt.mpr hf
    have hdiv : 0 < 3000 / rate := div_pos (by norm_num) hr
    simp only [enter_neo_to_gas_trade, if_neg hnl, Option.isSome_some]
    exact ⟨by linarith, by linarith, trivial, trivial⟩
  · have hgl : ¬ s.gas_balance < 10000 := not_lt.mpr hf
    have hmul : 0 < 10000 * rate := by positivity
    simp only [enter_gas_to_neo_trade, if_neg hgl, Option.isSome_some]
    exact ⟨by linarith, by linarith, trivial, trivial⟩
  · have hmul : 0 < t.amount * rate := mul_pos ha hr
    simp only [check_exit_neo_to_gas, h, if_pos hc]
    exact ⟨by linarith, by linarith, trivial, trivial⟩
  · have hdiv : 0 < t.amount / rate := div_pos ha hr
    simp only [check_exit_gas_to_neo, h, if_pos hc]
    exact ⟨by linarith, by linarith, trivial, trivial⟩

/-- Witness for C5: entries from the idle initial-balance state at rate
0.3; exits from the both-open fixture at rates 0.3012 and 0.2990. -/
theorem paired_mutation_witness :
    ((enter_neo_to_gas_trade idleState (3 / 10)).neo_balance
        < idleState.neo_balance ∧
      idleState.gas_balance < (enter_neo_to_gas_trade idleState (3 / 10)).gas_balance ∧
      (enter_neo_to_gas_trade idleState (3 / 10)).active_trade_neo_to_gas.isSome
        = true ∧
      (enter_neo_to_gas_trade idleState (3 / 10)).active_trade_gas_to_neo
        = idleState.active_trade_gas_to_neo) ∧
    ((enter_gas_to_neo_trade idleState (3 / 10)).gas_balance
        < idleState.gas_balance ∧
      idleState.neo_balance < (enter_gas_to_neo_trade idleState (3 / 10)).neo_balance ∧
      (enter_gas_to_neo_trade idleState (3 / 10)).active_trade_gas_to_neo.isSome
        = true ∧
      (enter_gas_to_neo_trade idleState (3 / 10)).active_trade_neo_to_gas
        = idleState.active_trade_neo_to_gas) ∧
    ((check_exit_neo_to_gas bothOpenState (3012 / 10000)).gas_balance
        < bothOpenState.gas_balance ∧
      bothOpenState.neo_balance
        < (check_exit_neo_to_gas bothOpenState (3012 / 10000)).neo_balance ∧
      (check_exit_neo_to_gas bothOpenState (3012 / 10000)).active_trade_neo_to_gas
        = none ∧
      (check_exit_neo_to_gas bothOpenState (3012 / 10000)).active_trade_gas_to_neo
        = bothOpenState.active_trade_gas_to_neo) ∧
    ((check_exit_gas_to_neo bothOpenState (2990 / 10000)).neo_balance
        < bothOpenState.neo_balance ∧
      bothOpenState.gas_balance
        < (check_exit_gas_to_neo bothOpenState (2990 / 10000)).gas_balance ∧
      (check_exit_gas_to_neo bothOpenState (2990 / 10000)).active_trade_gas_to_neo
        = none ∧
      (check_exit_gas_to_neo bothOpenState (2990 / 10000)).active_trade_neo_to_gas
        = bothOpenState.active_trade_neo_to_gas) :=
  ⟨(paired_mutation idleState (3 / 10) ⟨3 / 10, 10000⟩ (by norm_num)).1
      (by norm_num [idleState]) rfl,
   (paired_mutation idleState (3 / 10) ⟨3 / 10, 10000⟩ (by norm_num)).2.1
      (by norm_num [idleState]) rfl,
   (paired_mutation bothOpenState (3012 / 10000) ⟨3 / 10, 10000⟩ (by norm_num)).2.2.1
      rfl (by norm_num) (by norm_num [exit_threshold]),
   (paired_mutation bothOpenState (2990 / 10000) ⟨3 / 10, 3000⟩ (by norm_num)).2.2.2
      rfl (by norm_num) (by norm_num [exit_threshold])⟩

/-- Helper: the scan never sets `neo_price` when no record carries the
symbol `"NEO"`, for any starting accumulator. -/
theorem scan_fst_of_no_neo (data : List PriceRecord) :
    ∀ acc : Option ℚ × Option ℚ, (∀ i ∈ data, i.symbol ≠ "NEO") →
      (data.foldl
        (fun acc item =>
          if item.symbol = "NEO" then (item.usd_price, acc.2)
          else if item.symbol = "GAS" then (acc.1, item.usd_price)
          else acc) acc).1 = acc.1 := by
  induction data with
  | nil => intro acc _; rfl
  | cons i rest ih =>
    intro acc h
    have hi : i.symbol ≠ "NEO" := h i (List.mem_cons_self i rest)
    have hrest : ∀ j ∈ rest, j.symbol ≠ "NEO" :=
      fun j hj => h j (List.mem_cons_of_mem i hj)
    rw [List.foldl_cons, if_neg hi]
    by_cases hg : i.symbol = "GAS"
    · rw [if_pos hg]; exact ih _ hrest
    · rw [if_neg hg]; exact ih _ hrest

/-- Helper: the scan never sets `gas_price` when no record carries the
symbol `"GAS"`, for any starting accumulator. -/
theorem scan_snd_of_no_gas (data : List PriceRecord) :
    ∀ acc : Option ℚ × Option ℚ, (∀ i ∈ data, i.symbol ≠ "GAS") →
      (data.foldl
        (fun acc item =>
          if item.symbol = "NEO" then (item.usd_price, acc.2)
          else if item.symbol = "GAS" then (acc.1, item.usd_price)
          else acc) acc).2 = acc.2 := by
  induction data with
  | nil => intro acc _; rfl
  | cons i rest ih =>
    intro acc h
    have hi : i.symbol ≠ "GAS" := h i (List.mem_cons_self i rest)
    have hrest : ∀ j ∈ rest, j.symbol ≠ "GAS" :=
      fun j hj => h j (List.mem_cons_of_mem i hj)
    rw [List.foldl_cons]
    by_cases hn : i.symbol = "NEO"
    · rw [if_pos hn]; exact ih _ hrest
    · rw [if_neg hn, if_neg hi]; exact ih _ hrest

/-- C7: feed failure is isolated — the fetch reports unavailability when
the transport fails or the payload is unparseable (the `none` feed) and
when either required symbol is absent from the records; and a tick whose
fetch is unavailable leaves balances and both positions unchanged. -/
theorem feed_failure_isolation (s : BotState) (feed : Option (List PriceRecord))
    (data : List PriceRecord) :
    fetchRate none = none ∧
    ((∀ i ∈ data, i.symbol ≠ "NEO") → get_rate data = none) ∧
    ((∀ i ∈ data, i.symbol ≠ "GAS") → get_rate data = none) ∧
    (fetchRate feed = none → loopStep s feed = s) := by
  refine ⟨rfl, fun h => ?_, fun h => ?_, fun h => ?_⟩
  · have h1 : (scanPrices data).1 = none := scan_fst_of_no_neo data (none, none) h
    rcases hsp : scanPrices data with ⟨np, gp⟩
    rw [hsp] at h1
    subst h1
    simp [get_rate, hsp]
  · have h2 : (scanPrices data).2 = none := scan_snd_of_no_gas data (none, none) h
    rcases hsp : scanPrices data with ⟨np, gp⟩
    rw [hsp] at h2
    subst h2
    cases np <;> simp [get_rate, hsp]
  · simp [loopStep, h]

/-- Witness for C7: a feed with only a GAS record (no NEO symbol), and a
tick of the both-open fixture on a feed missing the GAS symbol. -/
theorem feed_failure_isolation_witness :
    get_rate [⟨"GAS", some 1⟩] = none ∧
    loopStep bothOpenState (some [⟨"NEO", some 1⟩]) = bothOpenState :=
  ⟨(feed_failure_isolation bothOpenState none [⟨"GAS", some 1⟩]).2.1
      (by decide),
   (feed_failure_isolation bothOpenState (some [⟨"NEO", some 1⟩]) []).2.2.2
      (by decide)⟩

/-- The last-one-wins value the scan leaves for one symbol: the
`usd_price` of the last record in array order carrying the symbol (the
first hit in the reversed list), or the default `d` when no record
carries it. -/
def lastHit (data : List PriceRecord) (sym : String) (d : Option ℚ) : Option ℚ :=
  match data.reverse.find? (fun i => i.symbol == sym) with
  | none => d
  | some i => i.usd_price

/-- The `usd_price` of the last record carrying the symbol, `none` when
the symbol is absent: the spec-level reading of duplicate handling. -/
def lastPrice (data : List PriceRecord) (sym : String) : Option ℚ :=
  lastHit data sym none

/-- Helper: unfolding `lastHit` over the head of the list — a later hit
in the tail wins over the head record. -/
theorem lastHit_cons (i : PriceRecord) (rest : List PriceRecord)
    (sym : String) (d : Option ℚ) :
    lastHit (i :: rest) sym d =
      if i.symbol = sym then lastHit rest sym i.usd_price
      else lastHit rest sym d := by
  unfold lastHit
  rw [List.reverse_cons, List.find?_append]
  by_cases h : i.symbol = sym
  · rw [if_pos h]
    have hfind : List.find? (fun i => i.symbol == sym) [i] = some i := by
      simp [List.find?, h]
    rw [hfind]
    cases List.find? (fun i => i.symbol == sym) rest.reverse <;> rfl
  · rw [if_neg h]
    have hb : (i.symbol == sym) = false := beq_eq_false_iff_ne.mpr h
    have hfind : List.find? (fun i => i.symbol == sym) [i] = none := by
      simp [List.find?, hb]
    rw [hfind]
    cases List.find? (fun i => i.symbol == sym) rest.reverse <;> rfl

/-- Helper: the scan's left fold computes exactly the last-one-wins
values for `"NEO"` and `"GAS"`, for any starting accumulator. -/
theorem scan_foldl_eq (data : List PriceRecord) :
    ∀ a b : Option ℚ,
      data.foldl
        (fun acc item =>
          if item.symbol = "NEO" then (item.usd_price, acc.2)
          else if item.symbol = "GAS" then (acc.1, item.usd_price)
          else acc) (a, b)
      = (lastHit data "NEO" a, lastHit data "GAS" b) := by
  induction data with
  | nil => intro a b; simp [lastHit]
  | cons i rest ih =>
    intro a b
    rw [List.foldl_cons, lastHit_cons, lastHit_cons]
    by_cases hn : i.symbol = "NEO"
    · have hg : ¬ i.symbol = "GAS" := by rw [hn]; decide
      rw [if_pos hn, if_pos hn, if_neg hg]
      exact ih i.usd_price b
    · rw [if_neg hn, if_neg hn]
      by_cases hg : i.symbol = "GAS"
      · rw [if_pos hg, if_pos hg]
        exact ih a i.usd_price
      · rw [if_neg hg, if_neg hg]
        exact ih a b

/-- Helper: a successful `get_rate` is determined by the last-one-wins
prices — both are present, the NEO one is nonzero, and the rate is
their quotient. -/
theorem get_rate_last (data : List PriceRecord) (r : ℚ)
    (h : get_rate data = some r) :
    ∃ np gp, lastPrice data "NEO" = some np ∧ lastPrice data "GAS" = some gp ∧
      np ≠ 0 ∧ r = gp / np := by
  have hs : scanPrices data = (lastPrice data "NEO", lastPrice data "GAS") :=
    scan_foldl_eq data none none
  unfold get_rate at h
  rw [hs] at h
  rcases hN : lastPrice data "NEO" with _ | np
  · rw [hN] at h; simp at h
  · rcases hG : lastPrice data "GAS" with _ | gp
    · rw [hN, hG] at h; simp at h
    · rw [hN, hG] at h
      by_cases h0 : np = 0
      · simp only [h0, if_pos rfl] at h
        · simp at h
      · simp only [if_neg h0] at h
        exact ⟨np, gp, rfl, rfl, h0, (Option.some.inj h).symm⟩

/-- Helper: a last-one-wins price comes from the `usd_price` field of
some record of the list. -/
theorem lastPrice_mem (data : List PriceRecord) (sym : String) (p : ℚ)
    (h : lastPrice data sym = some p) :
    ∃ i ∈ data, i.usd_price = some p := by
  unfold lastPrice lastHit at h
  rcases hf : List.find? (fun i => i.symbol == sym) data.reverse with _ | i
  · rw [hf] at h; simp at h
  · rw [hf] at h
    exact ⟨i, List.mem_reverse.mp (List.mem_of_find?_eq_some hf), h⟩

/-- C8: duplicate symbols — the last record in array order wins: a
successful rate is the `usd_price` of the last `"GAS"` record divided by
the `usd_price` of the last `"NEO"` record, for every record list. -/
theorem last_record_wins (data : List PriceRecord) (r : ℚ)
    (h : get_rate data = some r) :
    ∃ np gp, lastPrice data "NEO" = some np ∧ lastPrice data "GAS" = some gp ∧
      r = gp / np := by
  obtain ⟨np, gp, hN, hG, _, hr⟩ := get_rate_last data r h
  exact ⟨np, gp, hN, hG, hr⟩

/-- Witness for C8: a feed with two NEO and two GAS records; the rate
comes from the later pair (usd prices 4 and 3), not the earlier one. -/
theorem last_record_wins_witness :
    ∃ np gp,
      lastPrice [⟨"NEO", some 2⟩, ⟨"GAS", some 1⟩, ⟨"NEO", some 4⟩,
        ⟨"GAS", some 3⟩] "NEO" = some np ∧
      lastPrice [⟨"NEO", some 2⟩, ⟨"GAS", some 1⟩, ⟨"NEO", some 4⟩,
        ⟨"GAS", some 3⟩] "GAS" = some gp ∧
      (3 / 4 : ℚ) = gp / np :=
  last_record_wins
    [⟨"NEO", some 2⟩, ⟨"GAS", some 1⟩, ⟨"NEO", some 4⟩, ⟨"GAS", some 3⟩]
    (3 / 4) (by simp [get_rate, scanPrices])

/-- Counterexample to C10 as stated: a feed whose last GAS record has
`usd_price = 0` (with NEO at 1) makes `get_rate` succeed with rate 0,
which is not positive.  The code never validates the sign of the
fetched prices. -/
theorem fetch_positive_counterexample :
    get_rate [⟨"NEO", some 1⟩, ⟨"GAS", some 0⟩] = some 0 ∧ ¬ (0 : ℚ) < 0 := by
  constructor
  · simp [get_rate, scanPrices]
  · norm_num

/-- C10 (amended): whenever `get_rate` succeeds on a feed all of whose
present `usd_price` fields are positive, the returned rate is a
positive rational. -/
theorem fetch_positive_amended (data : List PriceRecord) (r : ℚ)
    (hpos : ∀ i ∈ data, 0 < i.usd_price.getD 1)
    (h : get_rate data = some r) : 0 < r := by
  obtain ⟨np, gp, hN, hG, _, hr⟩ := get_rate_last data r h
  obtain ⟨i, hi, hip⟩ := lastPrice_mem data "NEO" np hN
  obtain ⟨j, hj, hjp⟩ := lastPrice_mem data "GAS" gp hG
  have hnp : 0 < np := by
    have hp := hpos i hi
    rw [hip] at hp
    simpa using hp
  have hgp : 0 < gp := by
    have hp := hpos j hj
    rw [hjp] at hp
    simpa using hp
  rw [hr]
  exact div_pos hgp hnp

/-- Witness for the amended C10: NEO priced at 2, GAS at 1, giving the
positive rate 1/2. -/
theorem fetch_positive_amended_witness :
    get_rate [⟨"NEO", some 2⟩, ⟨"GAS", some 1⟩] = some (1 / 2) ∧
      (0 : ℚ) < 1 / 2 :=
  ⟨by simp [get_rate, scanPrices],
   fetch_positive_amended [⟨"NEO", some 2⟩, ⟨"GAS", some 1⟩] (1 / 2)
     (by decide) (by simp [get_rate, scanPrices])⟩

/-- The held amount of an optional position, zero when idle. -/
def heldAmount : Option Trade → ℚ
  | none => 0
  | some t => t.amount

/-- The NEO debit outstanding while the NEO→GAS channel is open: its
entry spent 3000 NEO that its exit will more than recover. -/
def ntgLock (s : BotState) : ℚ :=
  if s.active_trade_neo_to_gas.isSome then 3000 else 0

/-- The GAS debit outstanding while the GAS→NEO channel is open. -/
def gtnLock (s : BotState) : ℚ :=
  if s.active_trade_gas_to_neo.isSome then 10000 else 0

/-- The accounting invariant the polling loop maintains at positive
rates: every open position carries a positive entry rate and exactly
the amount its entry credited, the NEO balance covers the outstanding
GAS→NEO exit debit up to the open NEO→GAS entry debit, and the GAS
balance covers the outstanding NEO→GAS exit debit up to the open
GAS→NEO entry debit. -/
def Inv (s : BotState) : Prop :=
  (∀ t, s.active_trade_neo_to_gas = some t →
    0 < t.entry_rate ∧ t.amount = 3000 / t.entry_rate) ∧
  (∀ t, s.active_trade_gas_to_neo = some t →
    0 < t.entry_rate ∧ t.amount = 10000 * t.entry_rate) ∧
  10000 + heldAmount s.active_trade_gas_to_neo ≤ s.neo_balance + ntgLock s ∧
  100000 + heldAmount s.active_trade_neo_to_gas ≤ s.gas_balance + gtnLock s

/-- Helper: the NEO→GAS entry phase preserves the accounting invariant
(the entry band forces a positive entry rate by itself). -/
theorem Inv_entry_neo (s : BotState) (rate : ℚ) (hs : Inv s) :
    Inv (entry_phase_neo_to_gas s rate) := by
  obtain ⟨h1, h2, h3, h4⟩ := hs
  unfold entry_phase_neo_to_gas
  by_cases hc : (s.active_trade_neo_to_gas.isNone && check_entry_neo_to_gas s rate) = true
  · simp only [if_pos hc]
    rw [Bool.and_eq_true] at hc
    have hnone : s.active_trade_neo_to_gas = none := Option.isNone_iff_eq_none.mp hc.1
    have hband : entry_lower_bound ≤ rate ∧ rate ≤ entry_upper_bound := by
      have hc2 := hc.2
      rw [check_entry_neo_to_gas, hnone] at hc2
      exact of_decide_eq_true hc2
    have hrpos : 0 < rate := by
      have hb := hband.1
      rw [entry_lower_bound] at hb
      linarith
    have hlock : ntgLock s = 0 := by simp [ntgLock, hnone]
    have hheld : heldAmount s.active_trade_neo_to_gas = 0 := by
      simp [heldAmount, hnone]
    unfold enter_neo_to_gas_trade
    by_cases hf : s.neo_balance < 3000
    · simp only [if_pos hf]
      exact ⟨h1, h2, h3, h4⟩
    · simp only [if_neg hf]
      refine ⟨?_, ?_, ?_, ?_⟩
      · intro t ht
        simp only [Option.some.injEq] at ht
        subst ht
        exact ⟨hrpos, rfl⟩
      · intro t ht
        exact h2 t ht
      · show 10000 + heldAmount s.active_trade_gas_to_neo ≤
          s.neo_balance - 3000 + 3000
        rw [hlock] at h3
        linarith [h3]
      · show 100000 + 3000 / rate ≤ s.gas_balance + 3000 / rate + gtnLock s
        rw [hheld] at h4
        linarith [h4]
  · simp only [if_neg hc]
    exact ⟨h1, h2, h3, h4⟩

/-- Helper: the GAS→NEO entry phase preserves the accounting invariant. -/
theorem Inv_entry_gas (s : BotState) (rate : ℚ) (hs : Inv s) :
    Inv (entry_phase_gas_to_neo s rate) := by
  obtain ⟨h1, h2, h3, h4⟩ := hs
  unfold entry_phase_gas_to_neo
  by_cases hc : (s.active_trade_gas_to_neo.isNone && check_entry_gas_to_neo s rate) = true
  · simp only [if_pos hc]
    rw [Bool.and_eq_true] at hc
    have hnone : s.active_trade_gas_to_neo = none := Option.isNone_iff_eq_none.mp hc.1
    have hband : entry_lower_bound ≤ rate ∧ rate ≤ entry_upper_bound := by
      have hc2 := hc.2
      rw [check_entry_gas_to_neo, hnone] at hc2
      exact of_decide_eq_true hc2
    have hrpos : 0 < rate := by
      have hb := hband.1
      rw [entry_lower_bound] at hb
      linarith
    have hlock : gtnLock s = 0 := by simp [gtnLock, hnone]
    have hheld : heldAmount s.active_trade_gas_to_neo = 0 := by
      simp [heldAmount, hnone]
    unfold enter_gas_to_neo_trade
    by_cases hf : s.gas_balance < 10000
    · simp only [if_pos hf]
      exact ⟨h1, h2, h3, h4⟩
    · simp only [if_neg hf]
      refine ⟨?_, ?_, ?_, ?_⟩
      · intro t ht
        exact h1 t ht
      · intro t ht
        simp only [Option.some.injEq] at ht
        subst ht
        exact ⟨hrpos, rfl⟩
      · show 10000 + 10000 * rate ≤ s.neo_balance + 10000 * rate + ntgLock s
        rw [hheld] at h3
        linarith [h3]
      · show 100000 + heldAmount s.active_trade_neo_to_gas ≤
          s.gas_balance - 10000 + 10000
        rw [hlock] at h4
        linarith [h4]
  · simp only [if_neg hc]
    exact ⟨h1, h2, h3, h4⟩

/-- Helper: the NEO→GAS exit check preserves the accounting invariant;
the exit trigger itself forces a positive exit rate. -/
theorem Inv_exit_neo (s : BotState) (rate : ℚ) (hs : Inv s) :
    Inv (check_exit_neo_to_gas s rate) := by
  obtain ⟨h1, h2, h3, h4⟩ := hs
  unfold check_exit_neo_to_gas
  cases h : s.active_trade_neo_to_gas with
  | none => exact ⟨h1, h2, h3, h4⟩
  | some t =>
    by_cases hcond : t.entry_rate + exit_threshold ≤ rate
    · simp only [if_pos hcond]
      obtain ⟨he, ha⟩ := h1 t h
      have hre : t.entry_rate ≤ rate := by
        rw [exit_threshold] at hcond
        linarith
      have hapos : 0 < t.amount := by
        rw [ha]
        exact div_pos (by norm_num) he
      have key : t.amount * t.entry_rate = 3000 := by
        rw [ha]
        field_simp
      have hgain : 3000 ≤ t.amount * rate := by
        nlinarith [mul_nonneg hapos.le (sub_nonneg.mpr hre)]
      have hlock : ntgLock s = 3000 := by simp [ntgLock, h]
      have hheld : heldAmount s.active_trade_neo_to_gas = t.amount := by
        simp [heldAmount, h]
      refine ⟨?_, ?_, ?_, ?_⟩
      · intro t' ht'
        exact Option.noConfusion ht'
      · intro t' ht'
        exact h2 t' ht'
      · show 10000 + heldAmount s.active_trade_gas_to_neo ≤
          s.neo_balance + t.amount * rate + 0
        rw [hlock] at h3
        linarith [h3, hgain]
      · show 100000 + 0 ≤ s.gas_balance - t.amount + gtnLock s
        rw [hheld] at h4
        linarith [h4]
    · simp only [if_neg hcond]
      exact ⟨h1, h2, h3, h4⟩

/-- Helper: at a positive rate the GAS→NEO exit check preserves the
accounting invariant (positivity of the rate is genuinely needed here:
the conversion divides by the exit rate). -/
theorem Inv_exit_gas (s : BotState) (rate : ℚ) (hr : 0 < rate) (hs : Inv s) :
    Inv (check_exit_gas_to_neo s rate) := by
  obtain ⟨h1, h2, h3, h4⟩ := hs
  unfold check_exit_gas_to_neo
  cases h : s.active_trade_gas_to_neo with
  | none => exact ⟨h1, h2, h3, h4⟩
  | some t =>
    by_cases hcond : rate ≤ t.entry_rate - exit_threshold
    · simp only [if_pos hcond]
      obtain ⟨he, ha⟩ := h2 t h
      have hre : rate ≤ t.entry_rate := by
        rw [exit_threshold] at hcond
        linarith
      have hq : 10000 ≤ t.amount / rate := by
        rw [le_div_iff₀ hr, ha]
        linarith
      have hlock : gtnLock s = 10000 := by simp [gtnLock, h]
      have hheld : heldAmount s.active_trade_gas_to_neo = t.amount := by
        simp [heldAmount, h]
      refine ⟨?_, ?_, ?_, ?_⟩
      · intro t' ht'
        exact h1 t' ht'
      · intro t' ht'
        exact Option.noConfusion ht'
      · show 10000 + 0 ≤ s.neo_balance - t.amount + ntgLock s
        rw [hheld] at h3
        linarith [h3]
      · show 100000 + heldAmount s.active_trade_neo_to_gas ≤
          s.gas_balance + t.amount / rate + 0
        rw [hlock] at h4
        linarith [h4, hq]
    · simp only [if_neg hcond]
      exact ⟨h1, h2, h3, h4⟩

/-- Helper: one full tick at a positive rate preserves the invariant. -/
theorem Inv_tick (s : BotState) (rate : ℚ) (hr : 0 < rate) (hs : Inv s) :
    Inv (tick s rate) :=
  Inv_exit_gas _ rate hr
    (Inv_exit_neo _ rate (Inv_entry_gas _ rate (Inv_entry_neo s rate hs)))

/-- Helper: any run of the loop over positive rates preserves the
invariant. -/
theorem Inv_runTicks (rates : List ℚ) :
    ∀ s, Inv s → (∀ r ∈ rates, 0 < r) → Inv (runTicks s rates) := by
  induction rates with
  | nil => intro s hs _; exact hs
  | cons r rest ih =>
    intro s hs h
    exact ih (tick s r) (Inv_tick s r (h r (List.mem_cons_self r rest)) hs)
      (fun x hx => h x (List.mem_cons_of_mem r hx))

/-- Helper: the configured initial state satisfies the invariant. -/
theorem Inv_init : Inv initState := by
  refine ⟨?_, ?_, ?_, ?_⟩
  · intro t ht
    exact Option.noConfusion ht
  · intro t ht
    exact Option.noConfusion ht
  · norm_num [initState, heldAmount, ntgLock, gtnLock]
  · norm_num [initState, heldAmount, ntgLock, gtnLock]

/-- Helper: the invariant bounds both balances away from negative
values (NEO never drops below 7000, GAS never below 90000). -/
theorem Inv_nonneg (s : BotState) (hs : Inv s) :
    0 ≤ s.neo_balance ∧ 0 ≤ s.gas_balance := by
  obtain ⟨h1, h2, h3, h4⟩ := hs
  have hg : 0 ≤ heldAmount s.active_trade_gas_to_neo := by
    cases hgt : s.active_trade_gas_to_neo with
    | none => simp [heldAmount]
    | some t =>
      obtain ⟨he, ha⟩ := h2 t hgt
      simp only [heldAmount]
      rw [ha]
      linarith
  have hn : 0 ≤ heldAmount s.active_trade_neo_to_gas := by
    cases hnt : s.active_trade_neo_to_gas with
    | none => simp [heldAmount]
    | some t =>
      obtain ⟨he, ha⟩ := h1 t hnt
      simp only [heldAmount]
      rw [ha]
      exact le_of_lt (div_pos (by norm_num) he)
  have hnl : ntgLock s ≤ 3000 := by
    unfold ntgLock
    split <;> norm_num
  have hgl : gtnLock s ≤ 10000 := by
    unfold gtnLock
    split <;> norm_num
  exact ⟨by linarith, by linarith⟩

/-- C9: from the configured initial balances (10000 NEO, 100000 GAS),
both balances stay non-negative after every sequence of loop iterations
at positive rates. -/
theorem balances_nonneg (rates : List ℚ) (h : ∀ r ∈ rates, 0 < r) :
    0 ≤ (runTicks initState rates).neo_balance ∧
    0 ≤ (runTicks initState rates).gas_balance :=
  Inv_nonneg _ (Inv_runTicks rates initState Inv_init h)

/-- Witness for C9: the end-to-end rate sequence, all rates positive. -/
theorem balances_nonneg_witness :
    0 ≤ (runTicks initState [3 / 10, 3012 / 10000, 299 / 1000]).neo_balance ∧
    0 ≤ (runTicks initState [3 / 10, 3012 / 10000, 299 / 1000]).gas_balance :=
  balances_nonneg [3 / 10, 3012 / 10000, 299 / 1000] (by
    intro r hr
    fin_cases hr <;> norm_num)

end SwapBot
